import Mathlib

/-!
Verification of the knot-resolver cache core (src/lib/cache/api.c) against its
natural-language specification.  The C file is shallowly embedded below: byte
strings are lists of naturals, the backend key/value store is an association
list, 32-bit machine arithmetic is explicit where the C depends on it.
Functions of this repository that are referenced by api.c but whose sources are
not available (impl.h, entry_list.c, nsec1.c, entry_pkt.c, lib/utils.c,
lib/resolve.h, lib/layer.h and the libknot DNS library) are modelled from the
specification; each such definition carries a doc comment starting with
"Modelled from the spec:".
-/

namespace KresCache

/-! ## Bytes, labels and domain names -/

/-- A byte, kept as a natural number (values are below 256 in all real data). -/
abbrev Byte := Nat

/-- One DNS label: its byte content (length byte is implicit). -/
abbrev Label := List Byte

/-- A domain name as its list of labels, leftmost (most specific) label first;
the root name is the empty list. -/
abbrev Dname := List Label

/-- Wire-format size of an uncompressed name: one length byte per label plus
its content, plus the final zero byte (knot_dname_size of the DNS library). -/
def dname_size (n : Dname) : Nat := (n.map (fun l => l.length + 1)).sum + 1

/-- check_dname_for_lf (api.c): accept only names where the wire form contains
no zero byte before the terminator, i.e. every label is nonempty and contains
no zero byte (knot_dname_size n == strlen n + 1). -/
def check_dname_for_lf (n : Dname) : Bool :=
  n.all (fun l => (decide (l ≠ [])) && l.all (fun b => decide (b ≠ 0)))

/-- Modelled from the spec: knot_dname_lf of the DNS library collaborator.
The lookup format lists the labels in reverse order (root side first), each
label's bytes followed by a single zero separator byte. -/
def dname_lf (n : Dname) : List Byte :=
  (n.reverse.map (fun l => l ++ [0])).flatten

/-- Modelled from the spec: kr_dname_lf (lib/utils.c is not under src/).
Produces the lookup format of the name, optionally extended by a wildcard
label; fails when the name would not fit the 255-byte wire-size bound. -/
def kr_dname_lf (n : Dname) (add_wildcard : Bool) : Option (List Byte) :=
  if dname_size n > 255 then none
  else if add_wildcard then
    if (dname_lf n).length + 2 > 255 then none
    else some (dname_lf n ++ [42, 0])
  else some (dname_lf n)

/-! ## RR types (standard DNS type codes, from the DNS library descriptor) -/

def KNOT_RRTYPE_NS : Nat := 2
def KNOT_RRTYPE_SOA : Nat := 6
def KNOT_RRTYPE_CNAME : Nat := 5
def KNOT_RRTYPE_DNAME : Nat := 39
def KNOT_RRTYPE_DS : Nat := 43
def KNOT_RRTYPE_RRSIG : Nat := 46
def KNOT_RRTYPE_NSEC : Nat := 47
def KNOT_RRTYPE_NSEC3 : Nat := 50

/-- Modelled from the spec: knot_rrtype_is_metatype of the DNS library
(SIG, OPT, TKEY, TSIG, IXFR, AXFR, ANY). -/
def knot_rrtype_is_metatype (t : Nat) : Bool :=
  decide (t = 24) || decide (t = 41) || decide (t = 249) || decide (t = 250) ||
  decide (t = 251) || decide (t = 252) || decide (t = 255)

/-- check_rrtype (api.c): types to be ignored — metatypes and RRSIG. -/
def check_rrtype (t : Nat) : Bool :=
  !(knot_rrtype_is_metatype t) && decide (t ≠ KNOT_RRTYPE_RRSIG)

/-! ## Cache keys (key codec, api.c CACHE_KEY_DEF) -/

/-- A backend key is a byte string. -/
abbrev Key := List Byte

/-- key_exact_type_maypkt (api.c): key = dname lookup format, a zero
separator, the tag byte 'E' (69), then the rrtype as a 2-byte little-endian
integer.  CNAME and DNAME are lumped into NS.  The forbidden RRSIG case
returns the null value (modelled as the empty key). -/
def key_exact_type_maypkt (lf : List Byte) (t : Nat) : Key :=
  if t = KNOT_RRTYPE_RRSIG then []
  else
    let t2 := if t = KNOT_RRTYPE_CNAME ∨ t = KNOT_RRTYPE_DNAME then KNOT_RRTYPE_NS else t
    lf ++ [0, 69, t2 % 256, t2 / 256 % 256]

/-- key_exact_type (api.c): as key_exact_type_maypkt, with NSEC and NSEC3
forbidden (they are represented in other ways). -/
def key_exact_type (lf : List Byte) (t : Nat) : Key :=
  if t = KNOT_RRTYPE_NSEC ∨ t = KNOT_RRTYPE_NSEC3 then []
  else key_exact_type_maypkt lf t

/-- The key of an exact name+type entry, starting from the name itself. -/
def exact_key (n : Dname) (t : Nat) : Key := key_exact_type_maypkt (dname_lf n) t

/-- Modelled from the spec: key_NSEC1 (nsec1.c is not under src/): the zone's
lookup-format prefix, a zero separator, the tag byte '1' (49), then the
remainder of the name within the zone. -/
def key_NSEC1 (zlf_len : Nat) (lf : List Byte) : Key :=
  lf.take zlf_len ++ [0, 49] ++ lf.drop zlf_len

/-- The xNAME remap performed by the key codec: CNAME and DNAME are stored
under the NS rrtype key. -/
def xname_remap (t : Nat) : Nat :=
  if t = KNOT_RRTYPE_CNAME ∨ t = KNOT_RRTYPE_DNAME then KNOT_RRTYPE_NS else t

/-! ## Ranks (modelled) and 32-bit arithmetic -/

/-- Modelled from the spec: the rank byte's base level occupies the two low
bits (INITIAL < INSECURE < SECURE < BOGUS) and AUTH is a flag bit
(lib/resolve.h is not under src/). -/
def KR_RANK_INITIAL : Nat := 0
def KR_RANK_INSECURE : Nat := 1
def KR_RANK_SECURE : Nat := 2
def KR_RANK_BOGUS : Nat := 3
def KR_RANK_AUTH : Nat := 4

/-- Modelled from the spec: kr_rank_test (lib/resolve.h is not under src/).
Testing AUTH checks the flag bit; testing a base level compares the two low
bits with the flag masked away. -/
def kr_rank_test (rank kr_rank : Nat) : Bool :=
  if kr_rank = KR_RANK_AUTH then decide (rank / 4 % 2 = 1)
  else decide (rank % 4 = kr_rank)

/-- Interpretation of a 32-bit pattern as a signed int32 value. -/
def toInt32 (x : Nat) : Int :=
  if x < 2 ^ 31 then (x : Int) else (x : Int) - 2 ^ 32

/-! ## Entry headers and the backend store -/

/-- The entry header of api.c / impl.h: insertion time, ttl, rank byte and the
flag bits.  The fixed-layout byte offsets are kept abstract; the payload
follows the header. -/
structure EntryH where
  time : Nat := 0
  ttl : Nat := 0
  rank : Nat := 0
  is_packet : Bool := false
  has_optout : Bool := false
  has_ns : Bool := false
  has_cname : Bool := false
  has_dname : Bool := false
  deriving DecidableEq

/-- Modelled from the spec: offsetof(struct entry_h, data) — the header takes
time (4 bytes), ttl (4 bytes), rank (1 byte) and the flags byte. -/
def entry_h_data_off : Nat := 10

/-- Payload of one sub-entry: either a dematerialized RR-set (rdatas plus the
dematerialized RRSIG rdatas, empty when absent), or a length-prefixed wire
packet. -/
inductive EntryData where
  | rrdata (rdatas : List (List Byte)) (sigs : List (List Byte))
  | pkt (wire : List Byte)
  deriving DecidableEq

/-- One sub-entry of a cache value: its rrtype, header and payload.  One key
may chain several sub-entries (the NS-keyed xNAME bundle). -/
structure SubEntry where
  etype : Nat
  eh : EntryH
  d : EntryData
  deriving DecidableEq

/-- A value stored in the backend: raw bytes (the version entry) or a chain of
sub-entries (every 'E' entry). -/
inductive CacheVal where
  | raw (bytes : List Byte)
  | entries (es : List SubEntry)
  deriving DecidableEq

/-- The ordered key/value backend, modelled as an association list. -/
abbrev Store := List (Key × CacheVal)

def store_read (db : Store) (k : Key) : Option CacheVal :=
  (db.find? (fun p => decide (p.1 = k))).map (fun p => p.2)

def store_write (db : Store) (k : Key) (v : CacheVal) : Store :=
  db.filter (fun p => decide (p.1 ≠ k)) ++ [(k, v)]

/-- The cache handle: backend store, TTL clamps, statistics counters. -/
structure Cache where
  db : Store
  ttl_min : Nat
  ttl_max : Nat
  stats_insert : Nat := 0
  stats_delete : Nat := 0
  deriving DecidableEq

/-! ## Cache version and open-time check (api.c assert_right_version) -/

/-- The version key: the C array "\x00\x00V" including its NUL terminator,
with sizeof = 4 (api.c line 76: key.len = sizeof key_str). -/
def VERSION_KEY : Key := [0, 0, 86, 0]

/-- Two bytes of a uint16 value in little-endian order (the host order of the
reference platform; the C memcpy stores the native representation). -/
def u16le (v : Nat) : List Byte := [v % 256, v / 256 % 256]

/-- The stored version value: CACHE_VERSION = 3 as a host-order uint16. -/
def VERSION_VAL : List Byte := u16le 3

/-- cache_clear (api.c): bump the delete counter and clear the backend. -/
def cache_clear (c : Cache) : Cache :=
  { c with stats_delete := c.stats_delete + 1, db := [] }

/-- assert_right_version (api.c): read the version key; when it does not hold
exactly CACHE_VERSION, purge the store when non-empty, then write the
version key. -/
def assert_right_version (c : Cache) : Cache :=
  if store_read c.db VERSION_KEY = some (CacheVal.raw VERSION_VAL) then c
  else
    let c1 := if c.db.length ≠ 0 then cache_clear c else c
    { c1 with db := store_write c1.db VERSION_KEY (CacheVal.raw VERSION_VAL) }

/-- kr_cache_open (api.c): open the backend over the given store, reset the
statistics, install default TTL clamps (5 s and 6 days, from the spec since
lib/defines.h is not under src/), and run the version check. -/
def kr_cache_open (db : Store) : Cache :=
  assert_right_version
    { db := db, ttl_min := 5, ttl_max := 518400, stats_insert := 0, stats_delete := 0 }

/-! Helper lemmas about the store. -/

theorem store_read_write_self (db : Store) (k : Key) (v : CacheVal) :
    store_read (store_write db k v) k = some v := by
  unfold store_read store_write
  induction db with
  | nil => simp
  | cons p rest ih =>
    by_cases h : p.1 = k
    · simp only [List.filter_cons, h]
      simpa using ih
    · simp only [List.filter_cons, List.find?_cons, h]
      simpa [h] using ih

/-! ## Queries, requests and the TTL / rank policy -/

/-- The query flags touched by the cache layer (lib/rplan.h collaborator). -/
structure QFlags where
  NO_CACHE : Bool := false
  CACHE_TRIED : Bool := false
  CACHED : Bool := false
  NONAUTH : Bool := false
  STUB : Bool := false
  EXPIRING : Bool := false
  NO_MINIMIZE : Bool := false
  DNSSEC_INSECURE : Bool := false
  DNSSEC_WANT : Bool := false

/-- The parts of struct kr_query the cache reads: query name, type, class,
request timestamp (seconds), the optional serve-stale callback and flags.
The callback receives the (negative) remaining TTL and yields its decision. -/
structure Query where
  sname : Dname
  stype : Nat
  sclass : Nat
  timestamp : Nat
  stale_cb : Option (Int → Int) := none
  flags : QFlags := {}
  uid : Nat := 0

/-- The parts of struct kr_request the cache reads: the CD bit of the answer
wire and the trust-anchor coverage oracle for (qname, qtype) — the latter is
the value of kr_ta_covers_qry, an external collaborator. -/
structure Req where
  cd : Bool := false
  ta_covers : Bool := false

/-- get_new_ttl (api.c): 32-bit arithmetic as in the C source.  diff is the
int32 difference now − entry.time (uint32 wraparound), clamped below at 0;
res is the int32 value entry.ttl − diff; on negative res with owner, query
and stale callback all present the callback may override with a non-negative
value. -/
def get_new_ttl (e : EntryH) (qry : Option Query) (owner : Option Dname)
    (_rrtype : Nat) (now : Nat) : Int :=
  let diff0 : Int := toInt32 ((2 ^ 32 + now - e.time) % 2 ^ 32)
  let diff : Int := if diff0 < 0 then 0 else diff0
  let res : Int := toInt32 ((2 ^ 32 + e.ttl - diff.toNat) % 2 ^ 32)
  match qry, owner with
  | some q, some _ =>
    (match q.stale_cb with
     | some cb => if res < 0 then (if 0 ≤ cb res then cb res else res) else res
     | none => res)
  | _, _ => res

/-- get_lowest_rank (api.c): the rank floor of a request.  NONAUTH queries
accept INITIAL; with CD or stub mode unverified data is allowed; otherwise a
trust-anchor-covered name requires INSECURE with AUTH. -/
def get_lowest_rank (req : Req) (qry : Query) : Nat :=
  let allow_unverified := req.cd || qry.flags.STUB
  if qry.flags.NONAUTH then KR_RANK_INITIAL
  else if !allow_unverified && req.ta_covers then KR_RANK_INSECURE + KR_RANK_AUTH
  else KR_RANK_INITIAL + KR_RANK_AUTH

/-! ## Entry consistency (api.c entry_h_consistent) -/

/-- The rank/flag compatibility part of entry_h_consistent: BOGUS rank only on
packet entries, has_optout only on packet entries. -/
def eh_flags_ok (eh : EntryH) : Bool :=
  (!(kr_rank_test eh.rank KR_RANK_BOGUS) || eh.is_packet) &&
  (eh.is_packet || !eh.has_optout)

/-- A raw backend value as entry_h_consistent sees it: its byte length, the
header fields obtained by casting the data pointer, and the little-endian
uint16 packet length read from the first two payload bytes (meaningful only
when the value is long enough). -/
structure DbVal where
  len : Nat
  eh : EntryH
  pkt_len : Nat
  deriving DecidableEq

/-- entry_h_consistent (api.c): length checks first — the value must hold the
header, and a packet entry must also hold the 2-byte packet length and the
packet itself — then the rank/flag compatibility checks.  Failure means the
value is treated as corrupt (the C function returns NULL). -/
def entry_h_consistent (v : DbVal) (_rrtype : Nat) : Bool :=
  if v.len < entry_h_data_off then false
  else if v.eh.is_packet && decide (v.len < entry_h_data_off + 2) then false
  else if v.eh.is_packet && decide (v.len < entry_h_data_off + 2 + v.pkt_len) then false
  else eh_flags_ok v.eh

/-! ## RR-sets and the stash path (api.c stash_rrset and friends) -/

/-- An RR-set as the cache consumes it: owner, type, class, TTL shared by the
rdatas, and the rdata list.  For RRSIG sets the fields of the first signature
that the stash path reads (labels, type covered, signer name) are carried
explicitly, since wire parsing is delegated to the DNS library. -/
structure RRset where
  owner : Dname
  rtype : Nat
  rclass : Nat := 1
  ttl : Nat := 0
  rdatas : List (List Byte) := []
  sig_labels : Nat := 0
  sig_covered : Nat := 0
  sig_signer : Dname := []
  deriving DecidableEq

/-- stash_rrset_precond (api.c): EINVAL (−22) on a null RR-set or class other
than IN; 0 (skip, reported as success) on uncacheable types (metatypes,
RRSIG, NSEC3) or a zero-containing owner name; 1 means proceed. -/
def stash_rrset_precond (rr : Option RRset) : Int :=
  match rr with
  | none => -22
  | some r =>
    if r.rclass ≠ 1 then -22
    else if !(check_rrtype r.rtype) || r.rtype = KNOT_RRTYPE_NSEC3 then 0
    else if !(check_dname_for_lf r.owner) then 0
    else 1

/-- Modelled from the spec: entry_h_splice (entry_list.c is not under src/),
§4.5 step 4.  Reads the existing entry under the key; when a same-type
sub-entry exists and is not worse (its rank at least the new rank and its
residual life at least the new TTL) the stash is skipped (result none);
otherwise the sub-entries of other types are kept and returned so the new
sub-entry can join them. -/
def entry_h_splice (db : Store) (key : Key) (rtype rank new_ttl now : Nat) :
    Option (List SubEntry) :=
  match store_read db key with
  | none => some []
  | some (CacheVal.raw _) => some []
  | some (CacheVal.entries es) =>
    match es.find? (fun se => decide (se.etype = rtype)) with
    | none => some es
    | some old =>
      let residual : Int := (old.eh.ttl : Int) - ((now : Int) - (old.eh.time : Int))
      if decide (rank ≤ old.eh.rank) && decide ((new_ttl : Int) ≤ residual)
      then none
      else some (es.filter (fun se => decide (se.etype ≠ rtype)))

/-- Modelled from the spec: size of a dematerialized RDATASET (entry codec is
not under src/) — only its positivity and monotony matter here. -/
def rdataset_sz (rds : List (List Byte)) : Nat :=
  1 + (rds.map (fun rd => 6 + rd.length)).sum

def rdataset_sz_opt (o : Option RRset) : Nat :=
  match o with
  | none => 1
  | some s => rdataset_sz s.rdatas

/-- The tail of stash_rrset (api.c) shared by the NSEC and default branches:
splice against the existing entry, compute the TTL as the minimum over all
rdatas of the RR-set and the signature set clamped to the cache bounds,
write the header and payload, bump the insert counter, and return the number
of bytes written.  A splice refusal returns kr_ok (0) — "some aren't really
errors". -/
def stash_core (cache : Cache) (key : Key) (rr : RRset) (rr_sigs : Option RRset)
    (timestamp rank : Nat) : Cache × Int :=
  let ttl0 := rr.rdatas.foldl (fun a _ => min a rr.ttl) (2 ^ 32 - 1)
  let ttl1 := match rr_sigs with
    | none => ttl0
    | some s => s.rdatas.foldl (fun a _ => min a s.ttl) ttl0
  let ttl2 := max (min ttl1 cache.ttl_max) cache.ttl_min
  match entry_h_splice cache.db key rr.rtype rank ttl2 timestamp with
  | none => (cache, 0)
  | some keep =>
    let sig_rdatas := match rr_sigs with
      | none => []
      | some s => s.rdatas
    let eh : EntryH := { time := timestamp, ttl := ttl2, rank := rank }
    let se : SubEntry := { etype := rr.rtype, eh := eh, d := EntryData.rrdata rr.rdatas sig_rdatas }
    let db2 := store_write cache.db key (CacheVal.entries (keep ++ [se]))
    let len : Nat := entry_h_data_off + rdataset_sz rr.rdatas + rdataset_sz_opt rr_sigs
    ({ cache with db := db2, stats_insert := cache.stats_insert + 1 }, (len : Int))

/-- stash_rrset (api.c): derive the wildcard-encloser from the RRSIG label
count, build the key — NSEC through key_NSEC1 and only when SECURE and
signed, everything else through key_exact_type — and store through
stash_core.  Negative return values are errors, 0 means skipped, positive is
the entry size written. -/
def stash_rrset (cache : Cache) (_qry : Option Query) (rr : RRset)
    (rr_sigs : Option RRset) (timestamp rank : Nat) : Cache × Int :=
  let wild_labels : Int := match rr_sigs with
    | none => 0
    | some s => (rr.owner.length : Int) - (s.sig_labels : Int)
  if wild_labels < 0 then (cache, 0)
  else
    let encloser := rr.owner.drop wild_labels.toNat
    if rr.rtype = KNOT_RRTYPE_NSEC then
      if !(kr_rank_test rank KR_RANK_SECURE) then (cache, 0)
      else
        match rr_sigs with
        | none => (cache, -22)
        | some s =>
          if s.rdatas = [] then (cache, -22)
          else
            let zlf_len := dname_size s.sig_signer - 1
            match kr_dname_lf encloser (decide (0 < wild_labels)) with
            | none => (cache, -28)
            | some lf => stash_core cache (key_NSEC1 zlf_len lf) rr rr_sigs timestamp rank
    else
      match kr_dname_lf encloser (decide (0 < wild_labels)) with
      | none => (cache, -28)
      | some lf => stash_core cache (key_exact_type lf rr.rtype) rr rr_sigs timestamp rank

/-- kr_cache_insert_rr (api.c): a failed precondition returns kr_ok (0)
without touching the cache; otherwise the record is stashed and only a
negative stash result is propagated. -/
def kr_cache_insert_rr (cache : Cache) (rr : Option RRset) (rrsig : Option RRset)
    (rank timestamp : Nat) : Cache × Int :=
  if stash_rrset_precond rr ≤ 0 then (cache, 0)
  else
    match rr with
    | some r =>
      let w := stash_rrset cache none r rrsig timestamp rank
      if 0 ≤ w.2 then (w.1, 0) else (w.1, w.2)
    | none => (cache, 0)

/-! ## The peek path (api.c cache_peek, cache_peek_real, found_exact_hit) -/

/-- Modelled from the spec: the layer state bits (lib/layer.h is not under
src/): CONSUME, PRODUCE, DONE, FAIL as successive bits. -/
def KR_STATE_CONSUME : Nat := 1
def KR_STATE_PRODUCE : Nat := 2
def KR_STATE_DONE : Nat := 4
def KR_STATE_FAIL : Nat := 8

/-- The parts of the answer packet the cache writes: question, rcode, the
truncation bit (read by stash), the materialized answer RR-sets with their
signature rdatas, and the verbatim wire for packet-entry answers. -/
structure Pkt where
  qname : Dname := []
  qtype : Nat := 0
  rcode : Nat := 0
  tc : Bool := false
  ansRRsets : List (RRset × List (List Byte)) := []
  wire : List Byte := []
  deriving DecidableEq

/-- Modelled from the spec: pkt_renew — reset the packet to the given
question with empty sections (the packet utilities are not under src/). -/
def pkt_renew (_p : Pkt) (n : Dname) (t : Nat) : Pkt :=
  { qname := n, qtype := t }

/-- Modelled from the spec: pkt_append — append one materialized RR-set (and
its signatures) to the packet. -/
def pkt_append (p : Pkt) (rs : RRset) (sigs : List (List Byte)) : Pkt :=
  { p with ansRRsets := p.ansRRsets ++ [(rs, sigs)] }

/-- Modelled from the spec: entry2answer materializes the stored RR-set under
the requested owner and type with the computed TTL (entry codec is not under
src/); a packet payload cannot be materialized as an RR-set. -/
def entry2answer_rr (owner : Dname) (rtype : Nat) (new_ttl : Nat) (d : EntryData) :
    Option (RRset × List (List Byte)) :=
  match d with
  | EntryData.rrdata rds sigs =>
    some ({ owner := owner, rtype := rtype, rclass := 1, ttl := new_ttl, rdatas := rds }, sigs)
  | EntryData.pkt _ => none

/-- Modelled from the spec: entry_h_seek advances inside a value to the
sub-entry of the requested type (§4.3; entry_list.c is not under src/). -/
def entry_h_seek (v : CacheVal) (t : Nat) : Option SubEntry :=
  match v with
  | CacheVal.raw _ => none
  | CacheVal.entries es => es.find? (fun se => decide (se.etype = t))

/-- Modelled from the spec: is_expiring — the EXPIRING flag is set when the
remaining TTL is at most 5 seconds (impl.h is not under src/). -/
def is_expiring (_orig_ttl : Nat) (new_ttl : Int) : Bool := decide (new_ttl ≤ 5)

/-- answer_simple_hit (api.c): renew the packet to the question, materialize
the stored RR-set with the new TTL into the answer, and set the CACHED,
NO_MINIMIZE, EXPIRING and DNSSEC_INSECURE flags (clearing DNSSEC_WANT for an
insecure rank). -/
def answer_simple_hit (qry : Query) (pkt : Pkt) (rtype : Nat) (eh : EntryH)
    (d : EntryData) (new_ttl : Int) : Int × Pkt × Query :=
  let pkt1 := pkt_renew pkt qry.sname qry.stype
  match entry2answer_rr qry.sname rtype new_ttl.toNat d with
  | none => (-22, pkt, qry)
  | some (rs, sigs) =>
    let pkt2 := pkt_append pkt1 rs sigs
    let insecure := kr_rank_test eh.rank KR_RANK_INSECURE
    let fl := { qry.flags with
        EXPIRING := is_expiring eh.ttl new_ttl
        CACHED := true
        NO_MINIMIZE := true
        DNSSEC_INSECURE := insecure
        DNSSEC_WANT := if insecure then false else qry.flags.DNSSEC_WANT }
    (0, pkt2, { qry with flags := fl })

/-- Modelled from the spec: answer_from_pkt (entry_pkt.c is not under src/) —
§4.6.a: for packet entries the stored wire is returned verbatim. -/
def answer_from_pkt (qry : Query) (pkt : Pkt) (d : EntryData) (_new_ttl : Int) :
    Int × Pkt × Query :=
  match d with
  | EntryData.pkt w =>
    let pkt1 := { pkt_renew pkt qry.sname qry.stype with wire := w }
    let fl := { qry.flags with CACHED := true, NO_MINIMIZE := true }
    (0, pkt1, { qry with flags := fl })
  | EntryData.rrdata _ _ => (-22, pkt, qry)

/-- found_exact_hit (api.c): seek the sub-entry for the query type, check its
consistency, its freshness (get_new_ttl at the request timestamp) and its
rank against the floor, then answer from the packet or the RR data.  A miss
or unfit entry yields ENOENT (−2). -/
def found_exact_hit (qry : Query) (pkt : Pkt) (val : CacheVal) (lowest_rank : Nat) :
    Int × Pkt × Query :=
  match entry_h_seek val qry.stype with
  | none => (-2, pkt, qry)
  | some se =>
    if !(eh_flags_ok se.eh) then (-2, pkt, qry)
    else
      let new_ttl := get_new_ttl se.eh (some qry) (some qry.sname) qry.stype qry.timestamp
      if new_ttl < 0 ∨ se.eh.rank < lowest_rank then (-2, pkt, qry)
      else if se.eh.is_packet then answer_from_pkt qry pkt se.d new_ttl
      else answer_simple_hit qry pkt qry.stype se.eh se.d new_ttl

/-- The continuation of cache_peek_real past the exact-hit attempt: the
closest-NS scan and the NSEC negative-proof assembly.  Those live in parts of
the repository that are not under src/ (nsec1.c, entry_list.c), so the peek
model is parameterized over this continuation; the theorems below hold for
every behavior of it. -/
abbrev PeekFallback := Cache → Query → Pkt → Nat × Pkt × Query

/-- cache_peek_real (api.c): mark the query as cache-tried, abandon NSEC
queries and zero-containing or oversized names, then attempt the exact
name+type hit; an ENOENT outcome falls through to the closest-NS /
negative-proof continuation, any other error returns the caller's state, and
success returns DONE. -/
def cache_peek_real (fallback : PeekFallback) (ctx_state : Nat) (req : Req)
    (qry0 : Query) (pkt : Pkt) (cache : Cache) : Nat × Pkt × Query :=
  let qry := { qry0 with flags := { qry0.flags with CACHE_TRIED := true } }
  if qry.stype = KNOT_RRTYPE_NSEC then (ctx_state, pkt, qry)
  else if !(check_dname_for_lf qry.sname) then (ctx_state, pkt, qry)
  else
    match kr_dname_lf qry.sname false with
    | none => (ctx_state, pkt, qry)
    | some lf =>
      let lowest_rank := get_lowest_rank req qry
      let key := key_exact_type_maypkt lf qry.stype
      match store_read cache.db key with
      | none => fallback cache qry pkt
      | some v =>
        let r := found_exact_hit qry pkt v lowest_rank
        if r.1 = 0 then (KR_STATE_DONE, r.2.1, r.2.2)
        else if r.1 = -2 then fallback cache qry pkt
        else (ctx_state, pkt, qry)

/-- The skip preconditions of cache_peek (api.c): request already done or
failed, NO_CACHE, already tried without a stale callback, uncacheable qtype,
or class other than IN. -/
def peek_precond_skip (ctx_state : Nat) (qry : Query) : Bool :=
  decide (Nat.land ctx_state (KR_STATE_FAIL + KR_STATE_DONE) ≠ 0) ||
  qry.flags.NO_CACHE ||
  (qry.flags.CACHE_TRIED && qry.stale_cb.isNone) ||
  !(check_rrtype qry.stype) ||
  decide (qry.sclass ≠ 1)

/-- cache_peek (api.c): return the caller's state unchanged when a skip
precondition holds, and otherwise run cache_peek_real. -/
def cache_peek (fallback : PeekFallback) (ctx_state : Nat) (req : Req)
    (qry : Query) (pkt : Pkt) (cache : Cache) : Nat × Pkt × Query :=
  if peek_precond_skip ctx_state qry then (ctx_state, pkt, qry)
  else cache_peek_real fallback ctx_state req qry pkt cache

/-! ## The stash path driver (api.c cache_stash, stash_rrarray_entry) -/

/-- One entry of a ranked RR array (lib/resolve.h collaborator): the cached
mark, the uid of the query that selected it, its rank and the RR-set. -/
structure RankedEntry where
  cached : Bool := false
  qry_uid : Nat := 0
  rank : Nat := 0
  rr : Option RRset := none
  deriving DecidableEq

/-- Mark the array entry at the given index as cached. -/
def mark_cached (arr : List RankedEntry) (i : Nat) : List RankedEntry :=
  match arr.get? i with
  | some e => arr.set i { e with cached := true }
  | none => arr

/-- The signature search of stash_rrarray_entry (api.c): scan the array from
its end for an uncached RRSIG of the same query covering the record's type
at the same owner. -/
def find_sig_index (arr : List RankedEntry) (quid : Nat) (rr : RRset) : Option Nat :=
  (List.range arr.length).reverse.find? (fun j =>
    match arr.get? j with
    | some e2 =>
      decide (e2.qry_uid = quid) && !e2.cached &&
      (match e2.rr with
       | some s =>
         decide (s.rtype = KNOT_RRTYPE_RRSIG) && decide (s.sig_covered = rr.rtype) &&
         decide (s.owner = rr.owner)
       | none => false)
    | none => false)

/-- stash_rrarray_entry (api.c): skip entries already cached, run the stash
preconditions (whose ≤ 0 results — including EINVAL — are returned as-is),
find the matching signatures, stash, propagate a negative stash result, and
on a positive written size mark the record and its signatures as cached and
count nonauth RR-sets. -/
def stash_rrarray_entry (q : Query) (arr : List RankedEntry) (i : Nat)
    (cache : Cache) (unauth : Nat) : Int × List RankedEntry × Cache × Nat :=
  match arr.get? i with
  | none => (0, arr, cache, unauth)
  | some e =>
    if e.cached then (0, arr, cache, unauth)
    else
      let pc := stash_rrset_precond e.rr
      if pc ≤ 0 then (pc, arr, cache, unauth)
      else
        match e.rr with
        | none => (-22, arr, cache, unauth)
        | some rr =>
          let sig_idx := find_sig_index arr q.uid rr
          let rr_sigs := sig_idx.bind (fun j => (arr.get? j).bind (fun e2 => e2.rr))
          let w := stash_rrset cache (some q) rr rr_sigs q.timestamp e.rank
          if w.2 < 0 then (w.2, arr, w.1, unauth)
          else if 0 < w.2 then
            let arr2 := mark_cached arr i
            let arr3 := match sig_idx with
              | some j => mark_cached arr2 j
              | none => arr2
            let unauth2 :=
              if !(kr_rank_test e.rank KR_RANK_AUTH) && decide (rr.rtype ≠ KNOT_RRTYPE_NS)
              then unauth + 1 else unauth
            (0, arr3, w.1, unauth2)
          else (0, arr, w.1, unauth)

/-- The per-section loop of cache_stash (api.c): walk the indices from the end
of the array, skip entries of other queries, and abort on the first nonzero
result of stash_rrarray_entry. -/
def stash_section_go (q : Query) : List Nat → List RankedEntry → Cache → Nat →
    Int × List RankedEntry × Cache × Nat
  | [], arr, cache, unauth => (0, arr, cache, unauth)
  | i :: rest, arr, cache, unauth =>
    match arr.get? i with
    | none => stash_section_go q rest arr cache unauth
    | some e =>
      if e.qry_uid ≠ q.uid then stash_section_go q rest arr cache unauth
      else
        let r := stash_rrarray_entry q arr i cache unauth
        if r.1 ≠ 0 then r
        else stash_section_go q rest r.2.1 r.2.2.1 r.2.2.2

/-- The section loop of cache_stash over ANSWER, AUTHORITY and ADDITIONAL. -/
def stash_sections_go (q : Query) : List (List RankedEntry) → Cache → Nat →
    Int × Cache × Nat
  | [], cache, unauth => (0, cache, unauth)
  | arr :: rest, cache, unauth =>
    let r := stash_section_go q ((List.range arr.length).reverse) arr cache unauth
    if r.1 ≠ 0 then (r.1, r.2.2.1, r.2.2.2)
    else stash_sections_go q rest r.2.2.1 r.2.2.2

/-- The whole-packet stash invoked at the end of cache_stash.  stash_pkt
lives in entry_pkt.c, which is not under src/, so the model is parameterized
over it; the C8 theorem holds for every behavior of it. -/
abbrev StashPktFn := Pkt → Query → Cache → Cache

/-- cache_stash (api.c): skip when there is no query, it was answered from
cache, the qtype is uncacheable, the class is not IN, or the packet is
truncated; otherwise stash the selected records of every section, stopping at
the first error, then stash the packet.  The caller's state is returned in
every path — cache-stashing errors are ignored. -/
def cache_stash (stash_pkt_fn : StashPktFn) (ctx_state : Nat) (qry : Option Query)
    (pkt : Pkt) (sections : List (List RankedEntry)) (cache : Cache) : Nat × Cache :=
  match qry with
  | none => (ctx_state, cache)
  | some q =>
    if q.flags.CACHED || !(check_rrtype pkt.qtype) || decide (q.sclass ≠ 1) then
      (ctx_state, cache)
    else if pkt.tc then (ctx_state, cache)
    else
      let r := stash_sections_go q sections cache 0
      let cache2 := if r.1 = 0 then stash_pkt_fn pkt q r.2.1 else r.2.1
      (ctx_state, cache2)

/-! ## The closest-NS scan's per-step sub-entry order (api.c closest_NS) -/

/-- The order in which one step of the closest_NS scan examines the sub-entry
types of the NS-keyed entry, as translated from the type-advancing loop of
api.c lines 1092-1121: NS is skipped without has_ns or on an exact match
with a DS query (the parent's DS is wanted); CNAME only on an exact match
(explicitly also in the DS case); DNAME only when not an exact match. -/
def closest_NS_step_order (has_ns has_cname has_dname : Bool)
    (exact_match : Bool) (stype : Nat) : List Nat :=
  ((if has_ns && !(exact_match && decide (stype = KNOT_RRTYPE_DS))
    then [KNOT_RRTYPE_NS] else []) ++
   (if has_cname && exact_match then [KNOT_RRTYPE_CNAME] else [])) ++
  (if has_dname && !exact_match then [KNOT_RRTYPE_DNAME] else [])

/-- The per-step order claimed by the specification sentence, for comparison:
NS first (only gated by its presence flag), then CNAME only when the scan is
at an exact match AND the query type is not DS, then DNAME only when not at
an exact match. -/
def spec_claimed_step_order (has_ns has_cname has_dname : Bool)
    (exact_match : Bool) (stype : Nat) : List Nat :=
  (if has_ns then [KNOT_RRTYPE_NS] else []) ++
  (if has_cname && (exact_match && decide (stype ≠ KNOT_RRTYPE_DS))
   then [KNOT_RRTYPE_CNAME] else []) ++
  (if has_dname && !exact_match then [KNOT_RRTYPE_DNAME] else [])

/-- The per-step order stated by the amended claim: NS only when present and
the scan is not at an exact match of a DS query; CNAME only when present and
at an exact match (regardless of the query type, DS included); DNAME only
when present and not at an exact match. -/
def amended_step_order (has_ns has_cname has_dname : Bool)
    (exact_match : Bool) (stype : Nat) : List Nat :=
  (if has_ns = true ∧ ¬(exact_match = true ∧ stype = KNOT_RRTYPE_DS)
   then [KNOT_RRTYPE_NS] else []) ++
  ((if has_cname = true ∧ exact_match = true then [KNOT_RRTYPE_CNAME] else []) ++
   (if has_dname = true ∧ exact_match = false then [KNOT_RRTYPE_DNAME] else []))

/-! ## Claim theorems -/

/-- Claim C4 (amended): the cache version is persisted by the open-time
version check under the four-byte key 0x00 0x00 'V' 0x00 — the C array
"\x00\x00V" including its NUL terminator — as a uint16 equal to 3 stored in
host byte order. -/
theorem version_entry_after_open (db : Store) :
    store_read (kr_cache_open db).db VERSION_KEY = some (CacheVal.raw VERSION_VAL) ∧
    VERSION_KEY = [0, 0, 86, 0] ∧ VERSION_VAL = u16le 3 ∧ VERSION_KEY.length = 4 := by
  refine ⟨?_, rfl, rfl, rfl⟩
  unfold kr_cache_open assert_right_version
  by_cases h : store_read db VERSION_KEY = some (CacheVal.raw VERSION_VAL)
  · simpa [h] using h
  · by_cases h2 : db.length ≠ 0 <;>
      simp [h, h2, cache_clear, store_read_write_self]

/-- Claim C4 counterexample: the version key is not the three-byte string
0x00 0x00 'V' — immediately after open, a read under that three-byte key
finds nothing, because the written key carries the NUL terminator and is four
bytes long. -/
theorem version_key_not_three_bytes :
    store_read (kr_cache_open []).db [0, 0, 86] = none ∧
    VERSION_KEY ≠ [0, 0, 86] := by decide

/-- Claim C7: opening the cache over a non-empty store whose stored version
key mismatches CACHE_VERSION purges every entry and then writes the version
key, so that afterwards only the version entry remains. -/
theorem open_purges_on_version_mismatch (db : Store) (h1 : db ≠ [])
    (h2 : store_read db VERSION_KEY ≠ some (CacheVal.raw VERSION_VAL)) :
    (kr_cache_open db).db = [(VERSION_KEY, CacheVal.raw VERSION_VAL)] := by
  unfold kr_cache_open assert_right_version
  have hlen : db.length ≠ 0 := by
    simpa [List.length_eq_zero] using h1
  simp [h2, hlen, cache_clear, store_write]

theorem open_purges_on_version_mismatch_witness :
    (kr_cache_open [([1], CacheVal.raw [9])]).db =
      [(VERSION_KEY, CacheVal.raw VERSION_VAL)] :=
  open_purges_on_version_mismatch [([1], CacheVal.raw [9])] (by decide) (by decide)

/-- Claim C3 (amended): at each step of the closest_NS scan the sub-entries
are examined in the order NS, CNAME, DNAME, where NS is examined only when
present and not at an exact match of a DS query (the parent's DS is sought
one label up), CNAME only when present and at an exact match of the queried
name (including when the query type is DS), and DNAME only when present and
not at an exact match. -/
theorem closest_NS_step_order_amended (hn hc hd e : Bool) (stype : Nat) :
    closest_NS_step_order hn hc hd e stype = amended_step_order hn hc hd e stype := by
  cases hn <;> cases hc <;> cases hd <;> cases e <;>
    by_cases h : stype = KNOT_RRTYPE_DS <;>
      simp [closest_NS_step_order, amended_step_order, h]

/-- Claim C3 counterexample: with has_ns and has_cname set, at an exact match
of a DS query the code examines only CNAME (it skips NS because of the DS
query and keeps CNAME even in the DS case), while the claimed order examines
only NS (it attaches the DS condition to CNAME instead). -/
theorem closest_NS_step_order_counterexample :
    closest_NS_step_order true true false true KNOT_RRTYPE_DS = [KNOT_RRTYPE_CNAME] ∧
    spec_claimed_step_order true true false true KNOT_RRTYPE_DS = [KNOT_RRTYPE_NS] ∧
    [KNOT_RRTYPE_CNAME] ≠ [KNOT_RRTYPE_NS] := by decide

/-- Claim C6: a backend value passes the entry consistency check exactly when
its length covers the header, a packet entry's length also covers the 2-byte
packet length plus the packet, BOGUS rank occurs only on packet entries, and
has_optout occurs only on packet entries; every shorter or incompatible
value is rejected as corrupt. -/
theorem entry_h_consistent_characterization (v : DbVal) (t : Nat) :
    entry_h_consistent v t = true ↔
      (entry_h_data_off ≤ v.len ∧
       (v.eh.is_packet = true → entry_h_data_off + 2 + v.pkt_len ≤ v.len) ∧
       (kr_rank_test v.eh.rank KR_RANK_BOGUS = true → v.eh.is_packet = true) ∧
       (v.eh.has_optout = true → v.eh.is_packet = true)) := by
  unfold entry_h_consistent eh_flags_ok
  cases hp : v.eh.is_packet <;> cases hb : kr_rank_test v.eh.rank KR_RANK_BOGUS <;>
    cases ho : v.eh.has_optout <;>
      simp [hp, hb, ho] <;> omega

/-- Claim C8: cache_stash returns the caller's prior state on every input —
no internal stash error (precondition failure, per-record stash error, or a
truncated packet) is ever propagated to the caller as a failure.  The
statement quantifies over every behavior of the whole-packet stash. -/
theorem cache_stash_returns_caller_state (f : StashPktFn) (st : Nat)
    (qry : Option Query) (pkt : Pkt) (secs : List (List RankedEntry)) (cache : Cache) :
    (cache_stash f st qry pkt secs cache).1 = st := by
  unfold cache_stash
  cases qry with
  | none => rfl
  | some q =>
    dsimp only
    split_ifs <;> rfl

/-- Claim C10: kr_cache_insert_rr returns kr_ok (0) and leaves the cache
unchanged whenever the record fails the stash preconditions — a null RR-set,
class other than IN, a metatype, RRSIG or NSEC3 type, or an owner name with
a zero byte inside a label. -/
theorem insert_rr_precond_noop (cache : Cache) (rr : Option RRset) (sig : Option RRset)
    (rank ts : Nat)
    (h : rr = none ∨ ∃ r, rr = some r ∧
      (r.rclass ≠ 1 ∨ knot_rrtype_is_metatype r.rtype = true ∨
       r.rtype = KNOT_RRTYPE_RRSIG ∨ r.rtype = KNOT_RRTYPE_NSEC3 ∨
       check_dname_for_lf r.owner = false)) :
    kr_cache_insert_rr cache rr sig rank ts = (cache, 0) := by
  have hpc : stash_rrset_precond rr ≤ 0 := by
    rcases h with h | ⟨r, hrr, hcase⟩
    · simp [h, stash_rrset_precond]
    · subst hrr
      simp only [stash_rrset_precond, check_rrtype]
      rcases hcase with h1 | h1 | h1 | h1 | h1 <;>
        split_ifs <;> simp_all
  unfold kr_cache_insert_rr
  simp [hpc]

theorem insert_rr_precond_noop_witness :
    kr_cache_insert_rr { db := [], ttl_min := 5, ttl_max := 3600 }
      (some { owner := [[97]], rtype := KNOT_RRTYPE_RRSIG }) none 6 100 =
      ({ db := [], ttl_min := 5, ttl_max := 3600 }, 0) :=
  insert_rr_precond_noop _ _ _ _ _
    (Or.inr ⟨_, rfl, Or.inr (Or.inr (Or.inl rfl))⟩)

/-! Helper lemmas for the TTL formula: the int32 wraparound subtraction. -/

theorem toInt32_wrap_sub (a b : Nat)
    (hlt : (a : Int) - (b : Int) < 2 ^ 31) (hge : (b : Int) - (a : Int) ≤ 2 ^ 31) :
    toInt32 ((2 ^ 32 + a - b) % 2 ^ 32) = (a : Int) - (b : Int) := by
  unfold toInt32
  by_cases hab : b ≤ a
  · have h1 : 2 ^ 32 + a - b = 2 ^ 32 + (a - b) := by omega
    have h2 : a - b < 2 ^ 31 := by omega
    rw [h1, Nat.add_mod_left, Nat.mod_eq_of_lt (by omega), if_pos h2]
    omega
  · have h1 : 2 ^ 32 + a - b = 2 ^ 32 - (b - a) := by omega
    have h2 : 1 ≤ b - a := by omega
    have h3 : b - a ≤ 2 ^ 31 := by omega
    rw [h1, Nat.mod_eq_of_lt (by omega), if_neg (by omega)]
    omega

/-- Claim C5 (amended): for every entry, query, owner, rrtype and time now
within 32-bit range, get_new_ttl returns entry.ttl − max(0, now − entry.time);
when that value is negative and the query's stale callback is set, the
callback is invoked and get_new_ttl returns the callback's value if it is
non-negative — a negative callback value leaves the negative TTL difference
as the result, so the record stays unfit. -/
theorem get_new_ttl_formula (e : EntryH) (q : Query) (o : Dname) (t : Nat) (now : Nat)
    (h1 : e.time < 2 ^ 32) (h2 : e.ttl < 2 ^ 31) (h3 : now < 2 ^ 32)
    (h4 : (now : Int) - (e.time : Int) < 2 ^ 31)
    (h5 : (e.time : Int) - (now : Int) ≤ 2 ^ 31) :
    get_new_ttl e (some q) (some o) t now =
      (let res : Int := (e.ttl : Int) - max 0 ((now : Int) - (e.time : Int))
       match q.stale_cb with
       | some cb => if res < 0 then (if 0 ≤ cb res then cb res else res) else res
       | none => res) := by
  have hd0 : toInt32 ((2 ^ 32 + now - e.time) % 2 ^ 32) = (now : Int) - (e.time : Int) :=
    toInt32_wrap_sub now e.time h4 h5
  have hif : (if ((now : Int) - (e.time : Int)) < 0 then (0 : Int)
      else ((now : Int) - (e.time : Int))) = max 0 ((now : Int) - (e.time : Int)) := by
    split_ifs <;> omega
  have hdn : ((max 0 ((now : Int) - (e.time : Int))).toNat : Int) =
      max 0 ((now : Int) - (e.time : Int)) :=
    Int.toNat_of_nonneg (le_max_left 0 _)
  have hres : toInt32 ((2 ^ 32 + e.ttl -
        (max 0 ((now : Int) - (e.time : Int))).toNat) % 2 ^ 32) =
      (e.ttl : Int) - max 0 ((now : Int) - (e.time : Int)) := by
    have hx := toInt32_wrap_sub e.ttl (max 0 ((now : Int) - (e.time : Int))).toNat
      (by omega) (by omega)
    rw [hx, hdn]
  simp only [get_new_ttl, hd0, hif, hres]

/-- Claim C5 counterexample: with entry.time = 0, entry.ttl = 10 and
now = 20 the TTL difference is −10; a stale callback returning −5 is invoked,
yet get_new_ttl returns −10 (the negative difference), not the −5 the
callback provided — the callback's value is only returned when
non-negative. -/
theorem get_new_ttl_callback_counterexample :
    get_new_ttl { time := 0, ttl := 10, rank := 0 }
      (some { sname := [[97]], stype := 1, sclass := 1, timestamp := 20,
              stale_cb := some (fun _ => -5) })
      (some [[97]]) 1 20 = -10 ∧ ((-10 : Int) ≠ -5) := by
  constructor
  · decide
  · decide

theorem get_new_ttl_formula_witness :
    get_new_ttl { time := 100, ttl := 50, rank := 0 }
      (some { sname := [[97]], stype := 1, sclass := 1, timestamp := 120 })
      (some [[97]]) 1 120 = 30 := by
  have h := get_new_ttl_formula { time := 100, ttl := 50, rank := 0 }
    { sname := [[97]], stype := 1, sclass := 1, timestamp := 120 } [[97]] 1 120
    (by decide) (by decide) (by decide) (by decide) (by decide)
  simpa using h

/-! Helper lemmas for key injectivity: the zero-separated lookup format is
injective on names whose labels carry no zero byte. -/

theorem label_sep_append_inj (l1 l2 : Label) (r1 r2 : List Byte)
    (h1 : ∀ b ∈ l1, b ≠ 0) (h2 : ∀ b ∈ l2, b ≠ 0)
    (h : l1 ++ 0 :: r1 = l2 ++ 0 :: r2) : l1 = l2 ∧ r1 = r2 := by
  induction l1 generalizing l2 with
  | nil =>
    cases l2 with
    | nil => simpa using h
    | cons b t2 =>
      simp only [List.nil_append, List.cons_append, List.cons.injEq] at h
      exact absurd h.1.symm (h2 b (by simp))
  | cons a t1 ih =>
    cases l2 with
    | nil =>
      simp only [List.nil_append, List.cons_append, List.cons.injEq] at h
      exact absurd h.1 (h1 a (by simp))
    | cons b t2 =>
      simp only [List.cons_append, List.cons.injEq] at h
      obtain ⟨hab, hrest⟩ := h
      obtain ⟨hl, hr⟩ := ih t2 (fun x hx => h1 x (by simp [hx]))
        (fun x hx => h2 x (by simp [hx])) hrest
      exact ⟨by simp [hab, hl], hr⟩

theorem lf_chunks_inj (m1 m2 : List Label)
    (h1 : ∀ l ∈ m1, ∀ b ∈ l, b ≠ 0) (h2 : ∀ l ∈ m2, ∀ b ∈ l, b ≠ 0)
    (h : (m1.map (fun l => l ++ [0])).flatten = (m2.map (fun l => l ++ [0])).flatten) :
    m1 = m2 := by
  induction m1 generalizing m2 with
  | nil =>
    cases m2 with
    | nil => rfl
    | cons l t =>
      simp only [List.map_nil, List.flatten_nil, List.map_cons, List.flatten_cons] at h
      have hlen := congrArg List.length h
      simp at hlen
      omega
  | cons l1 t1 ih =>
    cases m2 with
    | nil =>
      simp only [List.map_nil, List.flatten_nil, List.map_cons, List.flatten_cons] at h
      have hlen := congrArg List.length h
      simp at hlen
    | cons l2 t2 =>
      simp only [List.map_cons, List.flatten_cons, List.append_assoc,
        List.singleton_append] at h
      obtain ⟨hl, hr⟩ := label_sep_append_inj l1 l2 _ _
        (h1 l1 (by simp)) (h2 l2 (by simp)) h
      have f1 : ∀ l ∈ t1, ∀ b ∈ l, b ≠ 0 :=
        fun l hltl => h1 l (List.mem_cons_of_mem _ hltl)
      have f2 : ∀ l ∈ t2, ∀ b ∈ l, b ≠ 0 :=
        fun l hltl => h2 l (List.mem_cons_of_mem _ hltl)
      have ht := ih t2 f1 f2 hr
      rw [hl, ht]

theorem dname_lf_inj (n1 n2 : Dname)
    (h1 : check_dname_for_lf n1 = true) (h2 : check_dname_for_lf n2 = true)
    (h : dname_lf n1 = dname_lf n2) : n1 = n2 := by
  unfold dname_lf at h
  have z1 : ∀ l ∈ n1.reverse, ∀ b ∈ l, b ≠ 0 := by
    intro l hl b hb
    have hall := List.all_eq_true.mp h1 l (List.mem_reverse.mp hl)
    rw [Bool.and_eq_true] at hall
    have hz := List.all_eq_true.mp hall.2 b hb
    simpa using hz
  have z2 : ∀ l ∈ n2.reverse, ∀ b ∈ l, b ≠ 0 := by
    intro l hl b hb
    have hall := List.all_eq_true.mp h2 l (List.mem_reverse.mp hl)
    rw [Bool.and_eq_true] at hall
    have hz := List.all_eq_true.mp hall.2 b hb
    simpa using hz
  have hrev := lf_chunks_inj n1.reverse n2.reverse z1 z2 h
  exact List.reverse_injective hrev

/-- Claim C2 (amended): the exact-entry key is injective on cacheable
(name, type) pairs up to the xNAME remap — for any two cacheable pairs with
zero-free names, equal keys force equal names and equal remapped types
(CNAME and DNAME are deliberately stored under the NS rrtype key, so pairs
differing only in that respect share a key). -/
theorem exact_key_inj (n1 n2 : Dname) (t1 t2 : Nat)
    (hn1 : check_dname_for_lf n1 = true) (hn2 : check_dname_for_lf n2 = true)
    (ht1 : check_rrtype t1 = true) (ht2 : check_rrtype t2 = true)
    (hb1 : t1 < 65536) (hb2 : t2 < 65536)
    (hk : exact_key n1 t1 = exact_key n2 t2) :
    n1 = n2 ∧ xname_remap t1 = xname_remap t2 := by
  have h46a : ¬(t1 = KNOT_RRTYPE_RRSIG) := by
    intro hcon
    rw [hcon] at ht1
    simp [check_rrtype, knot_rrtype_is_metatype, KNOT_RRTYPE_RRSIG] at ht1
  have h46b : ¬(t2 = KNOT_RRTYPE_RRSIG) := by
    intro hcon
    rw [hcon] at ht2
    simp [check_rrtype, knot_rrtype_is_metatype, KNOT_RRTYPE_RRSIG] at ht2
  unfold exact_key key_exact_type_maypkt at hk
  rw [if_neg h46a, if_neg h46b] at hk
  dsimp only at hk
  have hlen : (dname_lf n1).length = (dname_lf n2).length := by
    have := congrArg List.length hk
    simpa using this
  obtain ⟨hlf, htl⟩ := List.append_inj hk hlen
  refine ⟨dname_lf_inj n1 n2 hn1 hn2 hlf, ?_⟩
  have e1 : xname_remap t1 % 256 = xname_remap t2 % 256 := by
    have := congrArg (fun l => l.get? 2) htl
    simpa [xname_remap] using this
  have e2 : xname_remap t1 / 256 % 256 = xname_remap t2 / 256 % 256 := by
    have := congrArg (fun l => l.get? 3) htl
    simpa [xname_remap] using this
  have hr1 : xname_remap t1 < 65536 := by
    unfold xname_remap KNOT_RRTYPE_NS; split <;> omega
  have hr2 : xname_remap t2 < 65536 := by
    unfold xname_remap KNOT_RRTYPE_NS; split <;> omega
  omega

/-- Claim C2 counterexample: NS and CNAME are distinct cacheable types, yet
for the same owner name they produce the same key byte string (the xNAME
tunnel stores CNAME under the NS rrtype key). -/
theorem exact_key_collision_counterexample :
    exact_key [[97]] KNOT_RRTYPE_NS = exact_key [[97]] KNOT_RRTYPE_CNAME ∧
    KNOT_RRTYPE_NS ≠ KNOT_RRTYPE_CNAME ∧
    check_rrtype KNOT_RRTYPE_NS = true ∧ check_rrtype KNOT_RRTYPE_CNAME = true := by
  decide

theorem exact_key_inj_witness :
    ([[97]] : Dname) = [[97]] ∧ xname_remap 1 = xname_remap 1 :=
  exact_key_inj [[97]] [[97]] 1 1 (by decide) (by decide) (by decide) (by decide)
    (by decide) (by decide) rfl

/-- Claim C9: a peek whose query type is NSEC returns the caller's prior
state and adds nothing to the answer packet; the result does not depend on
the store contents (the lookup is abandoned before any backend read), and
whenever the general skip preconditions let the peek proceed, the query has
been marked as cache-tried first.  The statement quantifies over every
behavior of the closest-NS / negative-proof continuation. -/
theorem peek_nsec_skipped (fb : PeekFallback) (st : Nat) (req : Req) (q : Query)
    (p : Pkt) (c1 c2 : Cache) (h : q.stype = KNOT_RRTYPE_NSEC) :
    (cache_peek fb st req q p c1).1 = st ∧
    (cache_peek fb st req q p c1).2.1 = p ∧
    cache_peek fb st req q p c1 = cache_peek fb st req q p c2 ∧
    (peek_precond_skip st q = false →
      (cache_peek fb st req q p c1).2.2.flags.CACHE_TRIED = true) := by
  unfold cache_peek cache_peek_real
  by_cases hs : peek_precond_skip st q
  · simp [hs]
  · simp [hs, h]

theorem peek_nsec_skipped_witness :
    (cache_peek (fun _ qq pp => (0, pp, qq)) 1 {}
      { sname := [[97]], stype := 47, sclass := 1, timestamp := 0 } {}
      { db := [], ttl_min := 5, ttl_max := 3600 }).1 = 1 ∧
    (cache_peek (fun _ qq pp => (0, pp, qq)) 1 {}
      { sname := [[97]], stype := 47, sclass := 1, timestamp := 0 } {}
      { db := [], ttl_min := 5, ttl_max := 3600 }).2.1 = {} ∧
    cache_peek (fun _ qq pp => (0, pp, qq)) 1 {}
      { sname := [[97]], stype := 47, sclass := 1, timestamp := 0 } {}
      { db := [], ttl_min := 5, ttl_max := 3600 } =
    cache_peek (fun _ qq pp => (0, pp, qq)) 1 {}
      { sname := [[97]], stype := 47, sclass := 1, timestamp := 0 } {}
      { db := [([9], CacheVal.raw [1])], ttl_min := 5, ttl_max := 3600 } ∧
    (cache_peek (fun _ qq pp => (0, pp, qq)) 1 {}
      { sname := [[97]], stype := 47, sclass := 1, timestamp := 0 } {}
      { db := [], ttl_min := 5, ttl_max := 3600 }).2.2.flags.CACHE_TRIED = true := by
  have h := peek_nsec_skipped (fun _ qq pp => (0, pp, qq)) 1 {}
    { sname := [[97]], stype := 47, sclass := 1, timestamp := 0 } {}
    { db := [], ttl_min := 5, ttl_max := 3600 }
    { db := [([9], CacheVal.raw [1])], ttl_min := 5, ttl_max := 3600 } rfl
  exact ⟨h.1, h.2.1, h.2.2.1, h.2.2.2 (by decide)⟩

/-! Helper lemmas for the stash / peek round trip. -/

theorem foldl_min_const {α : Type} (l : List α) (t i : Nat) (h : l ≠ []) :
    l.foldl (fun a _ => min a t) i = min i t := by
  induction l generalizing i with
  | nil => exact absurd rfl h
  | cons a l2 ih =>
    simp only [List.foldl_cons]
    cases l2 with
    | nil => simp
    | cons c l3 =>
      rw [ih (min i t) (by simp)]
      rw [min_assoc, min_self]

theorem get_new_ttl_fresh (e : EntryH) (qry : Option Query) (o : Option Dname) (t : Nat)
    (h : e.ttl < 2 ^ 31) : get_new_ttl e qry o t e.time = (e.ttl : Int) := by
  have h1 : (2 ^ 32 + e.time - e.time) % 2 ^ 32 = 0 := by omega
  have h2 : toInt32 0 = 0 := by decide
  have h3 : (if (0 : Int) < 0 then (0 : Int) else 0) = 0 := by simp
  have h4 : (2 ^ 32 + e.ttl - (Int.toNat 0)) % 2 ^ 32 = e.ttl := by
    simp only [Int.toNat_zero, Nat.sub_zero]
    omega
  have h5 : toInt32 e.ttl = (e.ttl : Int) := by
    unfold toInt32
    rw [if_pos h]
  have hres : (0 : Int) ≤ (e.ttl : Int) := by positivity
  simp only [get_new_ttl, h1, h2, h3, h4, h5]
  cases qry with
  | none => rfl
  | some q =>
    cases o with
    | none => rfl
    | some od =>
      cases hc : q.stale_cb with
      | none => simp [hc]
      | some cb => simp [hc, not_lt.mpr hres]

/-- Characterization of stash_rrset on an empty store: a non-NSEC cacheable
RR-set without signatures is written under its exact key with the clamped
TTL, the insert counter is bumped, and the materialized size is returned. -/
theorem stash_rrset_empty_db (c : Cache) (rr : RRset) (ts rank : Nat)
    (hdb : c.db = [])
    (ht : rr.rtype ≠ KNOT_RRTYPE_NSEC) (ht2 : rr.rtype ≠ KNOT_RRTYPE_NSEC3)
    (hsz : dname_size rr.owner ≤ 255)
    (hrd : rr.rdatas ≠ [])
    (httl : rr.ttl < 2 ^ 32) :
    stash_rrset c none rr none ts rank =
      ({ c with
          db := [(exact_key rr.owner rr.rtype,
            CacheVal.entries
              [⟨rr.rtype,
                ⟨ts, max (min rr.ttl c.ttl_max) c.ttl_min, rank,
                 false, false, false, false, false⟩,
                EntryData.rrdata rr.rdatas []⟩])],
          stats_insert := c.stats_insert + 1 },
       ((entry_h_data_off + rdataset_sz rr.rdatas + 1 : Nat) : Int)) := by
  have hlf : kr_dname_lf rr.owner false = some (dname_lf rr.owner) := by
    unfold kr_dname_lf
    rw [if_neg (by omega)]
    rfl
  have hfold : rr.rdatas.foldl (fun a _ => min a rr.ttl) 4294967295 = rr.ttl := by
    rw [foldl_min_const rr.rdatas rr.ttl 4294967295 hrd]
    omega
  have hkey : key_exact_type (dname_lf rr.owner) rr.rtype = exact_key rr.owner rr.rtype := by
    unfold key_exact_type exact_key
    rw [if_neg (by tauto)]
  unfold stash_rrset stash_core entry_h_splice
  simp [ht, hlf, hkey, hfold, hdb, store_read, store_write, rdataset_sz_opt]

/-- Characterization of a fresh exact hit: a peek over a store holding
exactly the stashed sub-entry for the question, still fresh (lookup at the
insertion time) and with an acceptable, non-BOGUS rank, answers DONE with
the materialized RR-set carrying the stored TTL. -/
theorem peek_singleton_hit (fb : PeekFallback) (st : Nat) (req : Req) (q : Query)
    (p : Pkt) (c : Cache) (rds sigs : List (List Byte)) (ts cttl rank : Nat)
    (hdb : c.db = [(exact_key q.sname q.stype,
        CacheVal.entries [⟨q.stype, ⟨ts, cttl, rank, false, false, false, false, false⟩,
          EntryData.rrdata rds sigs⟩])])
    (hskip : peek_precond_skip st q = false)
    (hn : q.stype ≠ KNOT_RRTYPE_NSEC)
    (hname : check_dname_for_lf q.sname = true)
    (hsz : dname_size q.sname ≤ 255)
    (hts : q.timestamp = ts)
    (hcttl : cttl < 2 ^ 31)
    (hbog : kr_rank_test rank KR_RANK_BOGUS = false)
    (hrank : get_lowest_rank req q ≤ rank) :
    (cache_peek fb st req q p c).1 = KR_STATE_DONE ∧
    (cache_peek fb st req q p c).2.1.qname = q.sname ∧
    (cache_peek fb st req q p c).2.1.qtype = q.stype ∧
    (cache_peek fb st req q p c).2.1.ansRRsets =
      [(⟨q.sname, q.stype, 1, cttl, rds, 0, 0, []⟩, sigs)] := by
  obtain ⟨sn, st2, sc, tsq, cb, ⟨f1, f2, f3, f4, f5, f6, f7, f8, f9⟩, u⟩ := q
  replace hts : tsq = ts := hts
  subst hts
  replace hsz : dname_size sn ≤ 255 := hsz
  replace hn : st2 ≠ KNOT_RRTYPE_NSEC := hn
  replace hname : check_dname_for_lf sn = true := hname
  have hlf : kr_dname_lf sn false = some (dname_lf sn) := by
    unfold kr_dname_lf
    rw [if_neg (by omega)]
    rfl
  have hfresh : ∀ (qq : Option Query) (oo : Option Dname) (tt : Nat),
      get_new_ttl ⟨tsq, cttl, rank, false, false, false, false, false⟩ qq oo tt tsq =
        (cttl : Int) :=
    fun qq oo tt => get_new_ttl_fresh _ qq oo tt hcttl
  have hlow : get_lowest_rank req ⟨sn, st2, sc, tsq, cb,
        ⟨f1, true, f3, f4, f5, f6, f7, f8, f9⟩, u⟩ =
      get_lowest_rank req ⟨sn, st2, sc, tsq, cb,
        ⟨f1, f2, f3, f4, f5, f6, f7, f8, f9⟩, u⟩ := by
    simp [get_lowest_rank]
  unfold cache_peek cache_peek_real found_exact_hit answer_simple_hit
  simp only [hskip, Bool.false_eq_true, if_false]
  rw [if_neg (by simpa using hn)]
  rw [if_neg (by simp [hname])]
  simp only [hlf]
  rw [hdb]
  simp only [exact_key]
  simp [store_read, entry_h_seek, eh_flags_ok, hbog, hfresh, hlow,
    entry2answer_rr, pkt_renew, pkt_append, KR_STATE_DONE,
    not_lt.mpr hrank, not_lt.mpr (Int.natCast_nonneg cttl), Int.toNat_natCast]

/-- Claim C1 (amended): for every cacheable RR-set R whose type is not NSEC
or NSEC3, with a nonempty rdata set, a zero-free owner name, a non-BOGUS
rank at or above the request's rank floor, a peek for (qname = R.owner,
qtype = R.type) performed immediately after stash(R, rank, now) into a
previously empty cache returns R in the answer as DONE with
new_ttl = clamp(R.ttl, ttl_min, ttl_max) — the TTL is clamped to the cache
bounds at stash time, so it equals R.ttl exactly when R.ttl already lies
within those bounds. -/
theorem stash_peek_roundtrip (c : Cache) (req : Req) (q : Query) (p : Pkt)
    (rr : RRset) (rank ts st : Nat) (fb : PeekFallback)
    (hdb : c.db = [])
    (ht : rr.rtype ≠ KNOT_RRTYPE_NSEC) (ht2 : rr.rtype ≠ KNOT_RRTYPE_NSEC3)
    (hname : check_dname_for_lf rr.owner = true)
    (hsz : dname_size rr.owner ≤ 255)
    (hrd : rr.rdatas ≠ []) (httl : rr.ttl < 2 ^ 32)
    (hmax : c.ttl_max < 2 ^ 31) (hmin : c.ttl_min < 2 ^ 31)
    (hbog : kr_rank_test rank KR_RANK_BOGUS = false)
    (hq1 : q.sname = rr.owner) (hq2 : q.stype = rr.rtype) (hq3 : q.timestamp = ts)
    (hskip : peek_precond_skip st q = false)
    (hrank : get_lowest_rank req q ≤ rank) :
    (cache_peek fb st req q p (stash_rrset c none rr none ts rank).1).1 =
      KR_STATE_DONE ∧
    (cache_peek fb st req q p (stash_rrset c none rr none ts rank).1).2.1.ansRRsets =
      [(⟨rr.owner, rr.rtype, 1, max (min rr.ttl c.ttl_max) c.ttl_min,
         rr.rdatas, 0, 0, []⟩, [])] := by
  obtain ⟨ow, rt, rc, rttl, rds, s1, s2, s3⟩ := rr
  replace ht : rt ≠ KNOT_RRTYPE_NSEC := ht
  replace ht2 : rt ≠ KNOT_RRTYPE_NSEC3 := ht2
  replace hname : check_dname_for_lf ow = true := hname
  replace hsz : dname_size ow ≤ 255 := hsz
  replace hrd : rds ≠ [] := hrd
  replace httl : rttl < 2 ^ 32 := httl
  replace hq1 : q.sname = ow := hq1
  replace hq2 : q.stype = rt := hq2
  subst hq1
  subst hq2
  subst hq3
  have hclamp : max (min rttl c.ttl_max) c.ttl_min < 2 ^ 31 := by omega
  have hs := stash_rrset_empty_db c ⟨q.sname, q.stype, rc, rttl, rds, s1, s2, s3⟩
    q.timestamp rank hdb ht ht2 hsz hrd httl
  have hp := peek_singleton_hit fb st req q p
    ({ c with
        db := [(exact_key q.sname q.stype,
          CacheVal.entries
            [⟨q.stype,
              ⟨q.timestamp, max (min rttl c.ttl_max) c.ttl_min, rank,
               false, false, false, false, false⟩,
              EntryData.rrdata rds []⟩])],
        stats_insert := c.stats_insert + 1 })
    rds [] q.timestamp (max (min rttl c.ttl_max) c.ttl_min) rank
    rfl hskip ht hname hsz rfl hclamp hbog hrank
  rw [hs]
  exact ⟨hp.1, hp.2.2.2⟩

theorem stash_peek_roundtrip_witness :
    (cache_peek (fun _ qq pp => (0, pp, qq)) 1 {}
      { sname := [[97]], stype := 1, sclass := 1, timestamp := 100 } {}
      (stash_rrset { db := [], ttl_min := 5, ttl_max := 3600 } none
        { owner := [[97]], rtype := 1, rclass := 1, ttl := 300, rdatas := [[1, 2, 3, 4]] }
        none 100 6).1).1 = KR_STATE_DONE ∧
    (cache_peek (fun _ qq pp => (0, pp, qq)) 1 {}
      { sname := [[97]], stype := 1, sclass := 1, timestamp := 100 } {}
      (stash_rrset { db := [], ttl_min := 5, ttl_max := 3600 } none
        { owner := [[97]], rtype := 1, rclass := 1, ttl := 300, rdatas := [[1, 2, 3, 4]] }
        none 100 6).1).2.1.ansRRsets =
      [(⟨[[97]], 1, 1, max (min 300 3600) 5, [[1, 2, 3, 4]], 0, 0, []⟩, [])] :=
  stash_peek_roundtrip { db := [], ttl_min := 5, ttl_max := 3600 } {}
    { sname := [[97]], stype := 1, sclass := 1, timestamp := 100 } {}
    { owner := [[97]], rtype := 1, rclass := 1, ttl := 300, rdatas := [[1, 2, 3, 4]] }
    6 100 1 (fun _ qq pp => (0, pp, qq))
    rfl (by decide) (by decide) (by decide) (by decide) (by decide) (by decide)
    (by decide) (by decide) (by decide) rfl rfl rfl (by decide) (by decide)

/-- Claim C1 counterexample: stashing an RR-set with TTL 1 into a cache with
ttl_min = 5 and peeking it back at the same instant yields the answer with
new_ttl = 5, not the RR-set's TTL 1 — the stash path clamps the stored TTL
to [ttl_min, ttl_max], so the round trip does not return new_ttl = R.ttl for
every cacheable R. -/
theorem stash_peek_roundtrip_counterexample :
    (cache_peek (fun _ qq pp => (0, pp, qq)) 1 {}
      { sname := [[97]], stype := 1, sclass := 1, timestamp := 100 } {}
      (stash_rrset { db := [], ttl_min := 5, ttl_max := 3600 } none
        { owner := [[97]], rtype := 1, rclass := 1, ttl := 1, rdatas := [[1, 2, 3, 4]] }
        none 100 6).1).1 = KR_STATE_DONE ∧
    (cache_peek (fun _ qq pp => (0, pp, qq)) 1 {}
      { sname := [[97]], stype := 1, sclass := 1, timestamp := 100 } {}
      (stash_rrset { db := [], ttl_min := 5, ttl_max := 3600 } none
        { owner := [[97]], rtype := 1, rclass := 1, ttl := 1, rdatas := [[1, 2, 3, 4]] }
        none 100 6).1).2.1.ansRRsets =
      [(⟨[[97]], 1, 1, 5, [[1, 2, 3, 4]], 0, 0, []⟩, [])] ∧
    (5 : Nat) ≠ 1 := by decide

end KresCache
